import Mathlib

/-!
Verification development for the GitHub repository ingestion pipeline
(`src/github_direct_ingester.py`).

Modelling conventions:
* Python `str` values are modelled as `List Char` (`PyStr`); `len`, slicing,
  `lower()`, `strip()` etc. are modelled by the corresponding list operations.
* Python `float` quality scores are modelled as exact rationals (`ℚ`).
* `re` regular-expression scans are modelled by explicit fuel-bounded
  character scanners that reproduce the leftmost, non-overlapping,
  greedy-run matching behaviour of the concrete patterns used in the source.
* External collaborators (the GitHub HTTP API, the `chonkie` chunker, the
  embedding model, `uuid4`, wall-clock time) are modelled as explicit
  parameters or environment records, since they are not part of the
  repository's code.
* Python `list(set(...))` deduplication returns the elements in an
  unspecified order; it is modelled by `List.dedup`, and all properties
  proved about deduplicated lists are order-insensitive (set-level).
-/

set_option maxRecDepth 4000

abbrev PyStr := List Char

/-- Named characters, used instead of character literals that are awkward to
quote inside the embedding. -/
def squoteChar : Char := Char.ofNat 39

def dquoteChar : Char := Char.ofNat 34

def backtickChar : Char := Char.ofNat 96

def backslashChar : Char := Char.ofNat 92

def lbraceChar : Char := Char.ofNat 123

def rbraceChar : Char := Char.ofNat 125

def newlineChar : Char := Char.ofNat 10

/-- Model of the regex `\w` class (ASCII interpretation). -/
def isWordChar (c : Char) : Bool := c.isAlphanum || c == '_'

/-- Model of the regex `\s` class / Python whitespace. -/
def isWsChar (c : Char) : Bool := c.isWhitespace

def isAsciiLower (c : Char) : Bool := 'a' ≤ c && c ≤ 'z'

def isAsciiUpper (c : Char) : Bool := 'A' ≤ c && c ≤ 'Z'

def isAsciiAlpha (c : Char) : Bool := isAsciiLower c || isAsciiUpper c

/-- Python `str.lower()` (ASCII case folding, as used by the source). -/
def pyLower (s : PyStr) : PyStr := s.map Char.toLower

/-- Python `str.strip()`: drop whitespace from both ends. -/
def pyStrip (s : PyStr) : PyStr :=
  ((s.dropWhile isWsChar).reverse.dropWhile isWsChar).reverse

/-- Does `pat` occur as a prefix of `s`? -/
def prefixMatches : PyStr → PyStr → Bool
  | [], _ => true
  | _ :: _, [] => false
  | p :: ps, c :: cs => p == c && prefixMatches ps cs

/-- Case-insensitive prefix test (for patterns compiled with `re.IGNORECASE`). -/
def prefixMatchesCI (pat s : PyStr) : Bool :=
  prefixMatches (pyLower pat) (pyLower (s.take pat.length))

/-- Python `pat in s` substring containment (empty pattern is contained). -/
def pyContains (pat : PyStr) : PyStr → Bool
  | [] => pat.isEmpty
  | c :: cs => prefixMatches pat (c :: cs) || pyContains pat cs

def startsWithL (pat s : PyStr) : Bool := prefixMatches pat s

def endsWithL (pat s : PyStr) : Bool := prefixMatches pat.reverse s.reverse

/-- Python `str.split(sep)` for a single-character separator. -/
def splitOnChar (sep : Char) : PyStr → List PyStr
  | [] => [[]]
  | c :: cs =>
    if c == sep then [] :: splitOnChar sep cs
    else
      match splitOnChar sep cs with
      | [] => [[c]]
      | r :: rs => (c :: r) :: rs

/-- Model of `pathlib.Path(p).name` for the URL/path strings used by the
source: the segment after the last slash (trailing-slash normalisation of
`pathlib` is not needed for these inputs). -/
def pathBasename (s : PyStr) : PyStr :=
  (s.reverse.takeWhile (fun c => c != '/')).reverse

/-- Model of `pathlib.Path(p).suffix`: `name[i:]` for the last dot at index
`i > 0` of the basename, else empty. -/
def pathSuffix (s : PyStr) : PyStr :=
  let n := pathBasename s
  let t := n.reverse.takeWhile (fun c => c != '.')
  if t.length + 1 < n.length then n.drop (n.length - t.length - 1) else []

/-- First index at which `pat` occurs in `s` (Python `str.find`-style). -/
def findSubIdxAux (pat : PyStr) : Nat → PyStr → Option Nat
  | 0, _ => none
  | _ + 1, [] => none
  | fuel + 1, c :: cs =>
    if prefixMatches pat (c :: cs) then some 0
    else (findSubIdxAux pat fuel cs).map (· + 1)

def findSubIdx (pat s : PyStr) : Option Nat :=
  if pat.isEmpty then some 0 else findSubIdxAux pat s.length s

/-- Python `str.count(pat)`: non-overlapping occurrence count. -/
def countSubAux (pat : PyStr) : Nat → PyStr → Nat
  | 0, _ => 0
  | _ + 1, [] => 0
  | fuel + 1, c :: cs =>
    if prefixMatches pat (c :: cs) then 1 + countSubAux pat fuel ((c :: cs).drop pat.length)
    else countSubAux pat fuel cs

def countSubstr (pat s : PyStr) : Nat :=
  if pat.isEmpty then s.length + 1 else countSubAux pat s.length s

/-- Does predicate `p` hold at some suffix position of the text?  This is the
model of a boolean `re.search` for a pattern whose per-position check is `p`. -/
def anyPos (p : PyStr → Bool) : PyStr → Bool
  | [] => false
  | c :: cs => p (c :: cs) || anyPos p cs

/-- Generic `re.finditer` loop: `tryAt bdry s` attempts a match at the head of
`s` (where `bdry` says whether a `\b` word boundary precedes the position) and
returns the captured text together with the total match length (always ≥ 1).
Matches are leftmost and non-overlapping; scanning resumes after each match. -/
def scanStep (tryAt : Bool → PyStr → Option (PyStr × Nat)) :
    Nat → Bool → PyStr → List PyStr
  | 0, _, _ => []
  | _ + 1, _, [] => []
  | fuel + 1, bdry, c :: cs =>
    match tryAt bdry (c :: cs) with
    | some (cap, len) =>
      let rest := (c :: cs).drop len
      let lastC := ((c :: cs).take len).getLastD c
      cap :: scanStep tryAt fuel (!(isWordChar lastC)) rest
    | none => scanStep tryAt fuel (!(isWordChar c)) cs

def runScan (tryAt : Bool → PyStr → Option (PyStr × Nat)) (s : PyStr) : List PyStr :=
  scanStep tryAt s.length true s

/-! ### `extract_images_and_links` scanners -/

/-- Image extensions of the bare-image-URL pattern. -/
def imageExtsList : List PyStr :=
  [ "png".toList, "jpg".toList, "jpeg".toList, "gif".toList,
    "svg".toList, "webp".toList, "bmp".toList, "ico".toList ]

/-- Word boundary after position `pos` of `run` (end of run counts, since the
run is delimited by whitespace or end of input). -/
def extBoundaryOk (run : PyStr) (pos : Nat) : Bool :=
  match run.get? pos with
  | none => true
  | some c => !(isWordChar c)

/-- At index `j` of the non-space run, try `\.(?:png|jpg|jpeg|gif|svg|webp|bmp|ico)\b`
case-insensitively; returns the extension length on success. -/
def findImgExtAt (run : PyStr) (j : Nat) : Option Nat :=
  if run.get? j == some '.' && decide (1 ≤ j) then
    imageExtsList.findSome? (fun ext =>
      if prefixMatchesCI ext (run.drop (j + 1)) && extBoundaryOk run (j + 1 + ext.length) then
        some ext.length
      else none)
  else none

def schemePrefixLenCI (s : PyStr) : Nat :=
  if prefixMatchesCI ("https://".toList) s then 8
  else if prefixMatchesCI ("http://".toList) s then 7
  else 0

def schemePrefixLen (s : PyStr) : Nat :=
  if prefixMatches ("https://".toList) s then 8
  else if prefixMatches ("http://".toList) s then 7
  else 0

/-- Pattern 3 of `image_patterns`:
`\bhttps?://[^\s]+\.(?:png|jpg|jpeg|gif|svg|webp|bmp|ico)\b` with
`re.IGNORECASE`; the greedy `[^\s]+` backtracks, so the match ends at the
rightmost valid extension position in the maximal non-space run. -/
def tryBareImg (bdry : Bool) (s : PyStr) : Option (PyStr × Nat) :=
  if !bdry then none
  else
    let k := schemePrefixLenCI s
    if k == 0 then none
    else
      let run := (s.drop k).takeWhile (fun c => !(isWsChar c))
      match ((List.range run.length).reverse).findSome?
          (fun j => (findImgExtAt run j).map (fun el => j + 1 + el)) with
      | some endPos => some (s.take (k + endPos), k + endPos)
      | none => none

/-- Pattern 1 of `image_patterns`: markdown image, capturing the URL group. -/
def tryMdImage (_ : Bool) (s : PyStr) : Option (PyStr × Nat) :=
  match s with
  | '!' :: '[' :: rest =>
    let alt := rest.takeWhile (fun c => c != ']')
    (match rest.drop alt.length with
     | ']' :: '(' :: r2 =>
       let url := r2.takeWhile (fun c => c != ')')
       if url.isEmpty then none
       else
         match r2.drop url.length with
         | ')' :: _ => some (url, alt.length + url.length + 5)
         | _ => none
     | _ => none)
  | _ => none

def isQuoteChar (c : Char) : Bool := c == dquoteChar || c == squoteChar

/-- Completion of the HTML `img` pattern once the quoted value start position
(in the whole remaining text) is known: `([^"\']+)["\'][^>]*>`. -/
def tryHtmlImgAt (s : PyStr) (valStart : Nat) : Option (PyStr × Nat) :=
  let v := (s.drop valStart).takeWhile (fun c => !(isQuoteChar c))
  if v.isEmpty then none
  else
    match s.drop (valStart + v.length) with
    | c :: r3 =>
      if isQuoteChar c then
        let tailRun := r3.takeWhile (fun c2 => c2 != '>')
        match r3.drop tailRun.length with
        | '>' :: _ => some (v, valStart + v.length + 1 + tailRun.length + 1)
        | _ => none
      else none
    | [] => none

/-- Pattern 2 of `image_patterns`: `<img[^>]+src=["\']([^"\']+)["\'][^>]*>`
with `re.IGNORECASE`.  The greedy `[^>]+` is modelled by trying the candidate
`src=` positions inside the tag body from rightmost to leftmost. -/
def tryHtmlImage (_ : Bool) (s : PyStr) : Option (PyStr × Nat) :=
  if !(prefixMatchesCI ("<img".toList) s) then none
  else
    let body := (s.drop 4).takeWhile (fun c => c != '>')
    ((List.range body.length).reverse).findSome? (fun m =>
      if decide (1 ≤ m) && prefixMatchesCI ("src=".toList) (body.drop m) then
        match body.get? (m + 4) with
        | some q => if isQuoteChar q then tryHtmlImgAt s (4 + m + 5) else none
        | none => none
      else none)

/-- Attachment extensions of the `attachment_patterns`. -/
def attachmentExtsList : List PyStr :=
  [ "pdf".toList, "doc".toList, "docx".toList, "ppt".toList, "pptx".toList,
    "xls".toList, "xlsx".toList, "zip".toList, "tar".toList, "gz".toList ]

/-- The captured group `[^)]+\.(?:exts)` (or the href variant) requires the
run to end in a dot plus attachment extension with at least one character
before the dot; case-insensitive. -/
def hasAttachmentExt (r : PyStr) : Bool :=
  attachmentExtsList.any (fun ext =>
    endsWithL ('.' :: ext) (pyLower r) && decide (ext.length + 2 ≤ r.length))

/-- Attachment pattern 1: markdown link whose target ends in an attachment
extension, capturing the target. -/
def tryMdAttachment (_ : Bool) (s : PyStr) : Option (PyStr × Nat) :=
  match s with
  | '[' :: rest =>
    let label := rest.takeWhile (fun c => c != ']')
    if label.isEmpty then none
    else
      match rest.drop label.length with
      | ']' :: '(' :: r2 =>
        let r := r2.takeWhile (fun c => c != ')')
        if hasAttachmentExt r then
          match r2.drop r.length with
          | ')' :: _ => some (r, label.length + r.length + 4)
          | _ => none
        else none
      | _ => none
  | _ => none

/-- Attachment pattern 2: `href=["\']([^"\']+\.(?:exts))["\']`, case-insensitive. -/
def tryHrefAttachment (_ : Bool) (s : PyStr) : Option (PyStr × Nat) :=
  if !(prefixMatchesCI ("href=".toList) s) then none
  else
    match s.drop 5 with
    | q :: r1 =>
      if isQuoteChar q then
        let v := r1.takeWhile (fun c => !(isQuoteChar c))
        if v.isEmpty || !(hasAttachmentExt v) then none
        else
          match r1.drop v.length with
          | q2 :: _ => if isQuoteChar q2 then some (v, 7 + v.length) else none
          | [] => none
      else none
    | [] => none

/-- Link pattern 1: `\[([^\]]+)\]\((https?://[^)]+)\)` (case-sensitive),
capturing the URL group. -/
def tryMdLink (_ : Bool) (s : PyStr) : Option (PyStr × Nat) :=
  match s with
  | '[' :: rest =>
    let label := rest.takeWhile (fun c => c != ']')
    if label.isEmpty then none
    else
      match rest.drop label.length with
      | ']' :: '(' :: r2 =>
        let k := schemePrefixLen r2
        if k == 0 then none
        else
          let u := r2.takeWhile (fun c => c != ')')
          if decide (k + 1 ≤ u.length) then
            match r2.drop u.length with
            | ')' :: _ => some (u, label.length + u.length + 4)
            | _ => none
          else none
      | _ => none
  | _ => none

/-- Link pattern 2: `href=["\']([^"\']+)["\']` (case-sensitive). -/
def tryHref (_ : Bool) (s : PyStr) : Option (PyStr × Nat) :=
  if !(prefixMatches ("href=".toList) s) then none
  else
    match s.drop 5 with
    | q :: r1 =>
      if isQuoteChar q then
        let v := r1.takeWhile (fun c => !(isQuoteChar c))
        if v.isEmpty then none
        else
          match r1.drop v.length with
          | q2 :: _ => if isQuoteChar q2 then some (v, 7 + v.length) else none
          | [] => none
      else none
    | [] => none

/-- Stop set of the bare-URL pattern character class. -/
def bareUrlStop (c : Char) : Bool :=
  isWsChar c || c == ')' || c == ']' || c == rbraceChar || c == ',' || c == ';' ||
    c == dquoteChar || c == squoteChar || c == backtickChar || c == '<' || c == '>'

/-- Link pattern 3: `\bhttps?://[^\s\)\]\},;"\'`<>]+` (case-sensitive). -/
def tryBareUrl (bdry : Bool) (s : PyStr) : Option (PyStr × Nat) :=
  if !bdry then none
  else
    let k := schemePrefixLen s
    if k == 0 then none
    else
      let run := (s.drop k).takeWhile (fun c => !(bareUrlStop c))
      if run.isEmpty then none else some (s.take (k + run.length), k + run.length)

/-- All image-pattern occurrences, in source pattern order. -/
def rawImageOccs (content : PyStr) : List PyStr :=
  runScan tryMdImage content ++ runScan tryHtmlImage content ++ runScan tryBareImg content

/-- All attachment-pattern occurrences, in source pattern order. -/
def rawAttachmentOccs (content : PyStr) : List PyStr :=
  runScan tryMdAttachment content ++ runScan tryHrefAttachment content

/-- All link-pattern occurrences, in source pattern order. -/
def rawLinkOccs (content : PyStr) : List PyStr :=
  runScan tryMdLink content ++ runScan tryHref content ++ runScan tryBareUrl content

/-- Model of `urllib.parse.urljoin` for the relative references resolved by
the source (base URLs ending in a slash): replace everything after the last
slash of the base by the relative part. -/
def urljoinModel (base rel : PyStr) : PyStr :=
  (base.reverse.dropWhile (fun c => c != '/')).reverse ++ rel

/-- Relative-URL resolution applied to image/attachment occurrences. -/
def resolveUrl (base url : PyStr) : PyStr :=
  if !base.isEmpty &&
      !(startsWithL ("http://".toList) url || startsWithL ("https://".toList) url) then
    urljoinModel base url
  else url

/-- The seven extension substrings filtered out of external links. -/
def filteredLinkExts : List PyStr :=
  [ ".png".toList, ".jpg".toList, ".jpeg".toList, ".gif".toList,
    ".svg".toList, ".pdf".toList, ".doc".toList ]

/-- Filter applied to candidate external links: absolute http(s) URL whose
lowercased text contains none of the seven filtered extensions. -/
def externalLinkKeep (u : PyStr) : Bool :=
  (startsWithL ("http://".toList) u || startsWithL ("https://".toList) u) &&
    !(filteredLinkExts.any (fun e => pyContains e (pyLower u)))

structure ExtractResult where
  images : List PyStr
  attachments : List PyStr
  externals : List PyStr
deriving DecidableEq

/-- `extract_images_and_links(content, base_url)`: collect the pattern
occurrences, resolve relative image/attachment URLs, filter external links,
and deduplicate each of the three lists. -/
def extractImagesAndLinks (content baseUrl : PyStr) : ExtractResult :=
  { images := ((rawImageOccs content).map (resolveUrl baseUrl)).dedup,
    attachments := ((rawAttachmentOccs content).map (resolveUrl baseUrl)).dedup,
    externals := ((rawLinkOccs content).filter externalLinkKeep).dedup }

/-! ### `_detect_language` / `_extract_code_elements` / content flags -/

/-- Continue after a mandatory whitespace run (`\s+`). -/
def afterWs1 (r : PyStr) (k : PyStr → Bool) : Bool :=
  let ws := r.takeWhile isWsChar
  !ws.isEmpty && k (r.drop ws.length)

/-- Continue after an optional whitespace run (`\s*`). -/
def afterWs0 (r : PyStr) (k : PyStr → Bool) : Bool :=
  k (r.dropWhile isWsChar)

/-- Continue after a mandatory word-character run (`\w+`). -/
def afterWord1 (r : PyStr) (k : PyStr → Bool) : Bool :=
  let w := r.takeWhile isWordChar
  !w.isEmpty && k (r.drop w.length)

def headIs (c : Char) (r : PyStr) : Bool := r.head? == some c

def headSat (p : Char → Bool) (r : PyStr) : Bool :=
  match r.head? with
  | some c => p c
  | none => false

/-- Per-position check for `kw\s+\w+`. -/
def chkKwWsWord (kw : PyStr) (s : PyStr) : Bool :=
  prefixMatches kw s && afterWs1 (s.drop kw.length) (headSat isWordChar)

/-- Per-position check for `from\s+\w+\s+import`. -/
def chkFromImport (s : PyStr) : Bool :=
  prefixMatches ("from".toList) s &&
    afterWs1 (s.drop 4) (fun r1 =>
      afterWord1 r1 (fun r2 =>
        afterWs1 r2 (fun r3 => prefixMatches ("import".toList) r3)))

/-- Per-position check for the (literal-quote) pattern `const\s+\'\w+`. -/
def chkConstQuote (s : PyStr) : Bool :=
  prefixMatches ("const".toList) s &&
    afterWs1 (s.drop 5) (fun r => headIs squoteChar r && headSat isWordChar (r.drop 1))

/-- Per-position check for `k1\s+k2`. -/
def chkKwWsKw (k1 k2 : PyStr) (s : PyStr) : Bool :=
  prefixMatches k1 s && afterWs1 (s.drop k1.length) (fun r => prefixMatches k2 r)

/-- Per-position check for `kw\s+\w+\s*=`. -/
def chkKwWsWordEq (kw : PyStr) (s : PyStr) : Bool :=
  prefixMatches kw s &&
    afterWs1 (s.drop kw.length) (fun r =>
      afterWord1 r (fun r2 => afterWs0 r2 (headIs '=')))

/-- Per-position check for the CSS selector patterns `\.[\w-]+\s*LBRACE` and
`#[\w-]+\s*LBRACE` (where LBRACE is the opening curly brace). -/
def chkSelectorBrace (lead : Char) (s : PyStr) : Bool :=
  headIs lead s &&
    (let run := (s.drop 1).takeWhile (fun c => isWordChar c || c == '-')
     !run.isEmpty && afterWs0 ((s.drop 1).drop run.length) (headIs lbraceChar))

/-- Line-start check for `^#{1,6}\s` under `re.MULTILINE`: between 1 and 6
hashes anchored at the line start, followed by a whitespace character. -/
def mdHeaderLineCheck (s : PyStr) : Bool :=
  let run := s.takeWhile (fun c => c == '#')
  decide (1 ≤ run.length) && decide (run.length ≤ 6) && headSat isWsChar (s.drop run.length)

def searchMdHeaderAux : Bool → PyStr → Bool
  | _, [] => false
  | lineStart, c :: cs =>
    (lineStart && mdHeaderLineCheck (c :: cs)) || searchMdHeaderAux (c == newlineChar) cs

def searchMdHeader (s : PyStr) : Bool := searchMdHeaderAux true s

/-- A line matches `\[.*\]\(.*\)` (dot does not cross newlines) iff it has a
left bracket, a later bracket-paren pair, and a later closing paren. -/
def lineHasMdLinkShape (l : PyStr) : Bool :=
  match l.dropWhile (fun c => c != '[') with
  | [] => false
  | _ :: r =>
    match findSubIdx ("](".toList) r with
    | none => false
    | some j => (r.drop (j + 2)).any (fun c => c == ')')

def searchMdLinkPat (s : PyStr) : Bool :=
  (splitOnChar newlineChar s).any lineHasMdLinkShape

def boolCount (l : List Bool) : Nat := l.count true

/-- The `patterns` voting table of `_detect_language`, in source order; each
entry pairs a language with the number of its signature patterns that match. -/
def langVoteTable (c : PyStr) : List (PyStr × Nat) :=
  [ ("python".toList, boolCount
      [ anyPos (chkKwWsWord ("def".toList)) c, anyPos (chkKwWsWord ("import".toList)) c,
        anyPos chkFromImport c, anyPos (chkKwWsWord ("class".toList)) c ]),
    ("javascript".toList, boolCount
      [ anyPos (chkKwWsWord ("function".toList)) c, anyPos chkConstQuote c,
        anyPos (chkKwWsWord ("let".toList)) c, anyPos (chkKwWsWord ("var".toList)) c ]),
    ("java".toList, boolCount
      [ anyPos (chkKwWsKw ("public".toList) ("class".toList)) c,
        anyPos (chkKwWsWord ("private".toList)) c,
        anyPos (chkKwWsKw ("public".toList) ("static".toList)) c ]),
    ("cpp".toList, boolCount
      [ pyContains ("#include".toList) c, pyContains ("std::".toList) c,
        anyPos (chkKwWsWord ("namespace".toList)) c ]),
    ("css".toList, boolCount
      [ anyPos (chkSelectorBrace '.') c, anyPos (chkSelectorBrace '#') c,
        pyContains ("@media".toList) c ]),
    ("html".toList, boolCount
      [ pyContains ("<html>".toList) c, pyContains ("<div>".toList) c,
        pyContains ("<!DOCTYPE".toList) c ]),
    ("markdown".toList, boolCount
      [ searchMdHeader c, searchMdLinkPat c, pyContains ("```".toList) c ]) ]

/-- The `extension_map` lookup table of `_detect_language`, in source order. -/
def extensionMapList : List (PyStr × PyStr) :=
  [ (".py".toList, "python".toList), (".js".toList, "javascript".toList),
    (".ts".toList, "typescript".toList), (".java".toList, "java".toList),
    (".cpp".toList, "cpp".toList), (".c".toList, "c".toList), (".h".toList, "c".toList),
    (".css".toList, "css".toList), (".html".toList, "html".toList),
    (".xml".toList, "xml".toList), (".md".toList, "markdown".toList),
    (".rst".toList, "rst".toList), (".txt".toList, "text".toList),
    (".json".toList, "json".toList), (".yaml".toList, "yaml".toList),
    (".yml".toList, "yaml".toList), (".sh".toList, "shell".toList),
    (".bat".toList, "batch".toList), (".go".toList, "go".toList),
    (".rs".toList, "rust".toList), (".rb".toList, "ruby".toList),
    (".php".toList, "php".toList), (".sql".toList, "sql".toList) ]

def lookupStrPair (k : PyStr) : List (PyStr × PyStr) → Option PyStr
  | [] => none
  | p :: ps => if p.1 = k then some p.2 else lookupStrPair k ps

/-- `_detect_language`: extension lookup first, then pattern voting with a
two-match threshold, returning the first language (in table order) that
reaches the threshold, else "unknown". -/
def detectLanguage (content ext : PyStr) : PyStr :=
  match lookupStrPair ext extensionMapList with
  | some l => l
  | none =>
    match (langVoteTable content).find? (fun p => decide (2 ≤ p.2)) with
    | some p => p.1
    | none => "unknown".toList

/-- Capture-group scanner for `kw\s+(\w+)` (used for `def`, `class`,
`function` patterns). -/
def tryKwCapture (kw : PyStr) (_ : Bool) (s : PyStr) : Option (PyStr × Nat) :=
  if prefixMatches kw s then
    let r := s.drop kw.length
    let ws := r.takeWhile isWsChar
    if ws.isEmpty then none
    else
      let w := (r.drop ws.length).takeWhile isWordChar
      if w.isEmpty then none else some (w, kw.length + ws.length + w.length)
  else none

def scanPyDefs (c : PyStr) : List PyStr := runScan (tryKwCapture ("def".toList)) c

def scanClassNames (c : PyStr) : List PyStr := runScan (tryKwCapture ("class".toList)) c

def isPyImportBodyChar (c : Char) : Bool :=
  isWordChar c || c == '.' || c == ',' || isWsChar c || c == '*'

/-- After the literal `import`, the combined `\s+[\w.,\s*]+` requires the
maximal body-class run to start with whitespace and have length at least 2. -/
def pyImportBodyLen (r : PyStr) : Option Nat :=
  let t := r.takeWhile isPyImportBodyChar
  if headSat isWsChar t && decide (2 ≤ t.length) then some t.length else none

/-- Scanner for the Python import pattern
`(?:from\s+[\w.]+\s+)?import\s+[\w.,\s*]+` (whole match captured). -/
def tryPyImport (_ : Bool) (s : PyStr) : Option (PyStr × Nat) :=
  let fromPart : Option Nat :=
    if prefixMatches ("from".toList) s then
      let r1 := s.drop 4
      let ws1 := r1.takeWhile isWsChar
      if ws1.isEmpty then none
      else
        let m := (r1.drop ws1.length).takeWhile (fun c => isWordChar c || c == '.')
        if m.isEmpty then none
        else
          let r2 := (r1.drop ws1.length).drop m.length
          let ws2 := r2.takeWhile isWsChar
          if ws2.isEmpty then none
          else if prefixMatches ("import".toList) (r2.drop ws2.length) then
            some (4 + ws1.length + m.length + ws2.length)
          else none
    else none
  match fromPart with
  | some pre =>
    match pyImportBodyLen ((s.drop pre).drop 6) with
    | some bl => some (s.take (pre + 6 + bl), pre + 6 + bl)
    | none => none
  | none =>
    if prefixMatches ("import".toList) s then
      match pyImportBodyLen (s.drop 6) with
      | some bl => some (s.take (6 + bl), 6 + bl)
      | none => none
    else none

def scanPyImports (c : PyStr) : List PyStr := runScan tryPyImport c

/-- Scanner for the javascript patterns `(\w+)\s*=\s*function` and
`(\w+)\s*:\s*function` (`sep` is the separator character). -/
def trySepFunction (sep : Char) (_ : Bool) (s : PyStr) : Option (PyStr × Nat) :=
  let w := s.takeWhile isWordChar
  if w.isEmpty then none
  else
    let r1 := s.drop w.length
    let ws1 := r1.takeWhile isWsChar
    match r1.drop ws1.length with
    | c :: r2 =>
      if c == sep then
        let ws2 := r2.takeWhile isWsChar
        if prefixMatches ("function".toList) (r2.drop ws2.length) then
          some (w, w.length + ws1.length + 1 + ws2.length + 8)
        else none
      else none
    | [] => none

/-- Scanner for `const\s+(\w+)\s*=\s*\(`. -/
def tryConstParen (_ : Bool) (s : PyStr) : Option (PyStr × Nat) :=
  if prefixMatches ("const".toList) s then
    let r1 := s.drop 5
    let ws1 := r1.takeWhile isWsChar
    if ws1.isEmpty then none
    else
      let w := (r1.drop ws1.length).takeWhile isWordChar
      if w.isEmpty then none
      else
        let r2 := (r1.drop ws1.length).drop w.length
        let ws2 := r2.takeWhile isWsChar
        match r2.drop ws2.length with
        | '=' :: r3 =>
          let ws3 := r3.takeWhile isWsChar
          match r3.drop ws3.length with
          | '(' :: _ => some (w, 5 + ws1.length + w.length + ws2.length + 1 + ws3.length + 1)
          | _ => none
        | _ => none
  else none

/-- Completion of the javascript import pattern from a `from` occurrence:
`from\s+["\'].*?["\']` (the quoted part stays on one line). -/
def jsImpAfterFrom (r : PyStr) : Option Nat :=
  if prefixMatches ("from".toList) r then
    let r1 := r.drop 4
    let ws := r1.takeWhile isWsChar
    if ws.isEmpty then none
    else
      match r1.drop ws.length with
      | q :: r2 =>
        if isQuoteChar q then
          let v := r2.takeWhile (fun c => !(isQuoteChar c) && c != newlineChar)
          match r2.drop v.length with
          | q2 :: _ =>
            if isQuoteChar q2 then some (4 + ws.length + 1 + v.length + 1) else none
          | [] => none
        else none
      | [] => none
  else none

def jsImpScanFrom : Nat → PyStr → Option Nat
  | 0, _ => none
  | _ + 1, [] => none
  | fuel + 1, c :: cs =>
    if c == newlineChar then none
    else
      match jsImpAfterFrom (c :: cs) with
      | some k => some k
      | none => (jsImpScanFrom fuel cs).map (· + 1)

/-- Scanner for `import\s+.*?from\s+["\'].*?["\']` (whole match captured);
the lazy `.*?` is modelled by taking the first completing `from` on the line. -/
def tryJsImport (_ : Bool) (s : PyStr) : Option (PyStr × Nat) :=
  if prefixMatches ("import".toList) s then
    let r := s.drop 6
    if headSat isWsChar r then
      match jsImpScanFrom r.length r with
      | some k => some (s.take (6 + k), 6 + k)
      | none => none
    else none
  else none

/-- Core of the java method pattern after the optional access modifier:
`\s*\w+\s+(\w+)\s*\(`. -/
def tryJavaFuncCore (s : PyStr) : Option (PyStr × Nat) :=
  let ws0 := s.takeWhile isWsChar
  let r0 := s.drop ws0.length
  let w1 := r0.takeWhile isWordChar
  if w1.isEmpty then none
  else
    let r1 := r0.drop w1.length
    let ws1 := r1.takeWhile isWsChar
    if ws1.isEmpty then none
    else
      let w2 := (r1.drop ws1.length).takeWhile isWordChar
      if w2.isEmpty then none
      else
        let r2 := (r1.drop ws1.length).drop w2.length
        let ws2 := r2.takeWhile isWsChar
        match r2.drop ws2.length with
        | '(' :: _ =>
          some (w2, ws0.length + w1.length + ws1.length + w2.length + ws2.length + 1)
        | _ => none

/-- Scanner for `(?:public|private|protected)?\s*\w+\s+(\w+)\s*\(`; the
alternation is tried in source order, then the empty alternative. -/
def tryJavaFunc (_ : Bool) (s : PyStr) : Option (PyStr × Nat) :=
  let withMod : Option (PyStr × Nat) :=
    [ "public".toList, "private".toList, "protected".toList ].findSome? (fun m =>
      if prefixMatches m s then
        (tryJavaFuncCore (s.drop m.length)).map (fun p => (p.1, m.length + p.2))
      else none)
  match withMod with
  | some p => some p
  | none => tryJavaFuncCore s

/-- Scanner for `(?:public\s+)?class\s+(\w+)`. -/
def tryJavaClass (_ : Bool) (s : PyStr) : Option (PyStr × Nat) :=
  let withPub : Option (PyStr × Nat) :=
    if prefixMatches ("public".toList) s then
      let ws := (s.drop 6).takeWhile isWsChar
      if ws.isEmpty then none
      else
        (tryKwCapture ("class".toList) true ((s.drop 6).drop ws.length)).map
          (fun p => (p.1, 6 + ws.length + p.2))
    else none
  match withPub with
  | some p => some p
  | none => tryKwCapture ("class".toList) true s

/-- Scanner for `import\s+[\w.]+;` (whole match captured). -/
def tryJavaImport (_ : Bool) (s : PyStr) : Option (PyStr × Nat) :=
  if prefixMatches ("import".toList) s then
    let r := s.drop 6
    let ws := r.takeWhile isWsChar
    if ws.isEmpty then none
    else
      let m := (r.drop ws.length).takeWhile (fun c => isWordChar c || c == '.')
      if m.isEmpty then none
      else
        match (r.drop ws.length).drop m.length with
        | ';' :: _ =>
          some (s.take (6 + ws.length + m.length + 1), 6 + ws.length + m.length + 1)
        | _ => none
  else none

structure CodeElements where
  functions : List PyStr
  classes : List PyStr
  imports : List PyStr
deriving DecidableEq

def supportedCodeLangs : List PyStr :=
  [ "python".toList, "javascript".toList, "java".toList ]

/-- The per-language element collection of `_extract_code_elements` before the
final dedup-and-truncate loop (`list(set(...))` at the assignments is
modelled by `dedup`; javascript functions are collected without dedup, as in
the source). -/
def rawCodeElements (content lang : PyStr) : CodeElements :=
  if lang = "python".toList then
    { functions := (scanPyDefs content).dedup,
      classes := (scanClassNames content).dedup,
      imports := (scanPyImports content).dedup }
  else if lang = "javascript".toList then
    { functions :=
        runScan (tryKwCapture ("function".toList)) content ++
        runScan (trySepFunction '=') content ++
        runScan tryConstParen content ++
        runScan (trySepFunction ':') content,
      classes := (scanClassNames content).dedup,
      imports := (runScan tryJsImport content).dedup }
  else if lang = "java".toList then
    { functions := (runScan tryJavaFunc content).dedup,
      classes := (runScan tryJavaClass content).dedup,
      imports := (runScan tryJavaImport content).dedup }
  else { functions := [], classes := [], imports := [] }

/-- `_extract_code_elements`: per-language collection followed by the final
`list(set(...))[:20]` loop over the three categories. -/
def extractCodeElements (content lang : PyStr) : CodeElements :=
  let e := rawCodeElements content lang
  { functions := e.functions.dedup.take 20,
    classes := e.classes.dedup.take 20,
    imports := e.imports.dedup.take 20 }

/-- `_has_code_content`: boolean OR of the code-indicator searches, all with
`re.IGNORECASE` (modelled by lowercasing the content). -/
def hasCodeContent (content : PyStr) : Bool :=
  let lc := pyLower content
  anyPos (chkKwWsWord ("def".toList)) lc || anyPos (chkKwWsWord ("function".toList)) lc ||
  anyPos (chkKwWsWord ("class".toList)) lc || anyPos (chkKwWsWord ("import".toList)) lc ||
  pyContains ("#include".toList) lc || anyPos (chkKwWsWord ("namespace".toList)) lc ||
  anyPos (chkKwWsKw ("public".toList) ("class".toList)) lc ||
  anyPos (chkKwWsWord ("private".toList)) lc ||
  anyPos (chkKwWsWordEq ("const".toList)) lc || anyPos (chkKwWsWordEq ("var".toList)) lc ||
  anyPos (chkKwWsWordEq ("let".toList)) lc

def tripleDq : PyStr := List.replicate 3 dquoteChar

def tripleSq : PyStr := List.replicate 3 squoteChar

/-- A delimiter pair pattern `D.*?D` (with `re.DOTALL`) matches iff a second,
non-overlapping occurrence of `D` follows the first. -/
def searchPairDelim (delim : PyStr) (s : PyStr) : Bool :=
  match findSubIdx delim s with
  | none => false
  | some i => pyContains delim ((s.drop i).drop delim.length)

/-- The doc-comment block pattern: a `/**` opener followed later by `*/`. -/
def searchDocBlockC (s : PyStr) : Bool :=
  match findSubIdx ("/**".toList) s with
  | none => false
  | some i => pyContains ("*/".toList) ((s.drop i).drop 3)

/-- Per-position check for `n` hashes followed by `\s+\w`. -/
def chkHashesWsWord (n : Nat) (s : PyStr) : Bool :=
  prefixMatches (List.replicate n '#') s && afterWs1 (s.drop n) (headSat isWordChar)

/-- Per-position check equivalent to `#{1,6}\s+[A-Z]` with `re.IGNORECASE`:
some hash followed by mandatory whitespace and an ASCII letter. -/
def chkHashWsAlpha (s : PyStr) : Bool :=
  headIs '#' s && afterWs1 (s.drop 1) (headSat isAsciiAlpha)

/-- `_has_documentation_content`: boolean OR of the documentation indicators
(`re.DOTALL | re.IGNORECASE`, modelled by lowercasing the content). -/
def hasDocumentationContent (content : PyStr) : Bool :=
  let lc := pyLower content
  searchPairDelim tripleDq lc || searchPairDelim tripleSq lc || searchDocBlockC lc ||
  anyPos (chkHashesWsWord 2) lc || anyPos (chkHashesWsWord 3) lc || anyPos chkHashWsAlpha lc ||
  pyContains ("@param".toList) lc || pyContains ("@return".toList) lc ||
  pyContains ("@throws".toList) lc || pyContains ("todo:".toList) lc ||
  pyContains ("fixme:".toList) lc || pyContains ("note:".toList) lc

/-! ### `_extract_keywords` and `_calculate_quality_scores` -/

/-- Maximal runs of word characters: the matches of `\b\w+\b`. -/
def wordRunsAux : Nat → PyStr → List PyStr
  | 0, _ => []
  | _ + 1, [] => []
  | fuel + 1, c :: cs =>
    if isWordChar c then
      let r := (c :: cs).takeWhile isWordChar
      r :: wordRunsAux fuel ((c :: cs).drop r.length)
    else wordRunsAux fuel cs

def wordRuns (s : PyStr) : List PyStr := wordRunsAux s.length s

def fence : PyStr := List.replicate 3 backtickChar

/-- Model of `re.sub` with the lazy fenced-code pattern (triple backtick up to
the nearest closing triple backtick, dot matching newlines): remove each
non-overlapping fenced block. -/
def stripFencedAux : Nat → PyStr → PyStr
  | 0, s => s
  | _ + 1, [] => []
  | fuel + 1, c :: cs =>
    if prefixMatches fence (c :: cs) then
      match findSubIdx fence ((c :: cs).drop 3) with
      | some j => stripFencedAux fuel (((c :: cs).drop 3).drop (j + 3))
      | none => c :: cs
    else c :: stripFencedAux fuel cs

def stripFenced (s : PyStr) : PyStr := stripFencedAux s.length s

/-- Model of `re.sub` with the inline-code pattern (backtick, one or more
non-backtick characters, backtick): remove each non-overlapping span. -/
def stripInlineAux : Nat → PyStr → PyStr
  | 0, s => s
  | _ + 1, [] => []
  | fuel + 1, c :: cs =>
    if c == backtickChar then
      let run := cs.takeWhile (fun d => d != backtickChar)
      match cs.drop run.length with
      | d :: rest2 =>
        if !run.isEmpty && d == backtickChar then stripInlineAux fuel rest2
        else c :: stripInlineAux fuel cs
      | [] => c :: stripInlineAux fuel cs
    else c :: stripInlineAux fuel cs

def stripInline (s : PyStr) : PyStr := stripInlineAux s.length s

def isBracketChar (c : Char) : Bool :=
  c == '(' || c == ')' || c == lbraceChar || c == rbraceChar ||
  c == '[' || c == ']' || c == '<' || c == '>'

/-- Model of `re.sub(r'[(){}\[\]<>]', ' ', s)`. -/
def bracketsToSpace (s : PyStr) : PyStr :=
  s.map (fun c => if isBracketChar c then ' ' else c)

/-- The stopword set of `_extract_keywords`. -/
def keywordStopwords : List PyStr :=
  [ "the".toList, "and".toList, "for".toList, "are".toList, "but".toList,
    "not".toList, "you".toList, "all".toList, "can".toList, "has".toList,
    "had".toList, "this".toList, "that".toList, "with".toList, "from".toList,
    "they".toList, "will".toList, "been".toList, "have".toList, "were".toList,
    "said".toList, "each".toList, "which".toList, "their".toList, "time".toList,
    "would".toList, "about".toList, "into".toList, "function".toList,
    "class".toList, "method".toList, "return".toList, "value".toList,
    "parameter".toList, "variable".toList ]

/-- First-occurrence deduplication (Python dict-key insertion order). -/
def firstOccDedupAux : List PyStr → List PyStr → List PyStr
  | _, [] => []
  | seen, w :: ws =>
    if seen.contains w then firstOccDedupAux seen ws
    else w :: firstOccDedupAux (w :: seen) ws

def firstOccDedup (l : List PyStr) : List PyStr := firstOccDedupAux [] l

/-- Stable descending insertion by frequency (Python `sorted(..., reverse=True)`
keeps the original order among equal keys). -/
def insertByFreqDesc (freq : PyStr → Nat) (w : PyStr) : List PyStr → List PyStr
  | [] => [w]
  | x :: xs => if freq x < freq w then w :: x :: xs else x :: insertByFreqDesc freq w xs

/-- `_extract_keywords`: strip fenced and inline code, blank out brackets,
tokenize lowercased all-alphabetic words of length ≥ 3 (the matches of
`\b[a-zA-Z]{3,}\b`), drop stopwords, rank by frequency descending (stable),
keep the top 15. -/
def extractKeywords (content : PyStr) : List PyStr :=
  let cleaned := bracketsToSpace (stripInline (stripFenced content))
  let tokens := (wordRuns (pyLower cleaned)).filter
    (fun w => decide (3 ≤ w.length) && w.all isAsciiAlpha)
  let eligible := tokens.filter
    (fun w => !(keywordStopwords.contains w) && decide (2 < w.length))
  let keys := firstOccDedup eligible
  let freq := fun w => eligible.count w
  (keys.foldl (fun acc w => insertByFreqDesc freq w acc) []).take 15

/-- Count of the matches of `https?://[^\s]+` (case-sensitive, no boundary). -/
def tryUrlLen (s : PyStr) : Option Nat :=
  let k := schemePrefixLen s
  if k == 0 then none
  else
    let run := (s.drop k).takeWhile (fun c => !(isWsChar c))
    if run.isEmpty then none else some (k + run.length)

def countScanAux (tryLen : PyStr → Option Nat) : Nat → PyStr → Nat
  | 0, _ => 0
  | _ + 1, [] => 0
  | fuel + 1, c :: cs =>
    match tryLen (c :: cs) with
    | some k => 1 + countScanAux tryLen fuel ((c :: cs).drop k)
    | none => countScanAux tryLen fuel cs

def countUrls (s : PyStr) : Nat := countScanAux tryUrlLen s.length s

/-- Greedy consumption of the repeated CamelCase group `(?:[A-Z][a-z]+)*`. -/
def camelGroupsAux : Nat → PyStr → Nat
  | 0, _ => 0
  | fuel + 1, s =>
    match s with
    | c :: rest =>
      if isAsciiUpper c then
        let low := rest.takeWhile isAsciiLower
        if low.isEmpty then 0
        else (1 + low.length) + camelGroupsAux fuel (rest.drop low.length)
      else 0
    | [] => 0

/-- Match attempt for `[A-Z][a-z]+(?:[A-Z][a-z]+)*`. -/
def tryCamelLen (s : PyStr) : Option Nat :=
  match s with
  | c :: rest =>
    if isAsciiUpper c then
      let low := rest.takeWhile isAsciiLower
      if low.isEmpty then none
      else some (1 + low.length + camelGroupsAux rest.length (rest.drop low.length))
    else none
  | [] => none

def countCamel (s : PyStr) : Nat := countScanAux tryCamelLen s.length s

structure QualityScores where
  content_quality_score : ℚ
  semantic_density_score : ℚ
  information_value_score : ℚ
deriving DecidableEq

/-- The six boolean structure indicators of `_calculate_quality_scores`, in
source order. -/
def qualityIndicators (content : PyStr) (ce : CodeElements) (hasDoc : Bool) : List Bool :=
  [ decide (100 < content.length),
    pyContains (newlineChar :: newlineChar :: []) content,
    [ "#".toList, "##".toList, "###".toList ].any (fun m => pyContains m content),
    hasDoc,
    decide (0 < ce.functions.length),
    decide (2 < content.countP (fun c => c == '.' || c == '!' || c == '?')) ]

/-- `len(set(re.findall(BSLASH-b BSLASH-w 3-or-more BSLASH-b, content.lower())))`. -/
def uniqueWordCount (content : PyStr) : Nat :=
  (((wordRuns (pyLower content)).filter (fun w => decide (3 ≤ w.length))).dedup).length

/-- `len(re.findall(BSLASH-b BSLASH-w-plus BSLASH-b, content))`. -/
def totalWordCount (content : PyStr) : Nat := (wordRuns content).length

/-- The five information indicators of `_calculate_quality_scores`, in source
order: function count, class count, external URL count, CamelCase-term
count, fenced-marker count. -/
def infoIndicators (content : PyStr) (ce : CodeElements) : List Nat :=
  [ ce.functions.length, ce.classes.length, countUrls content,
    countCamel content, countSubstr fence content ]

def infoCaps : List Nat := [10, 5, 5, 20, 10]

/-- `_calculate_quality_scores`: satisfied fraction of the six indicators;
unique/total word ratio scaled by 2 and clamped at 1 (0 when there are no
words); capped information indicators summed and divided by the cap total. -/
def calculateQualityScores (content : PyStr) (ce : CodeElements) (hasDoc : Bool) :
    QualityScores :=
  let inds := qualityIndicators content ce hasDoc
  let cq : ℚ := ((inds.count true : ℚ)) / ((inds.length : ℚ))
  let tw := totalWordCount content
  let density : ℚ := if 0 < tw then ((uniqueWordCount content : ℚ)) / ((tw : ℚ)) else 0
  let actual : Nat := (((infoIndicators content ce).zip infoCaps).map (fun p => min p.1 p.2)).sum
  { content_quality_score := cq,
    semantic_density_score := min (density * 2) 1,
    information_value_score := ((actual : ℚ)) / ((infoCaps.sum : ℚ)) }

structure ContentAnalysis where
  language : PyStr
  has_code : Bool
  has_documentation : Bool
  function_names : List PyStr
  class_names : List PyStr
  import_statements : List PyStr
  keywords : List PyStr
  content_quality_score : ℚ
  semantic_density_score : ℚ
  information_value_score : ℚ
deriving DecidableEq

/-- `analyze_content`: language detection, code elements, content flags,
keywords, quality scores. -/
def analyzeContent (content : PyStr) (extension : PyStr) : ContentAnalysis :=
  let language := detectLanguage content extension
  let ce := extractCodeElements content language
  let hasDoc := hasDocumentationContent content
  let qs := calculateQualityScores content ce hasDoc
  { language := language,
    has_code := hasCodeContent content,
    has_documentation := hasDoc,
    function_names := ce.functions,
    class_names := ce.classes,
    import_statements := ce.imports,
    keywords := extractKeywords content,
    content_quality_score := qs.content_quality_score,
    semantic_density_score := qs.semantic_density_score,
    information_value_score := qs.information_value_score }

/-! ### `process_file` and chunk records -/

/-- Model of `json.dumps` escaping for one character (quote and backslash
escapes; control-character escapes are not needed for the modelled inputs). -/
def jsonEscapeChar (c : Char) : PyStr :=
  if c == dquoteChar || c == backslashChar then [backslashChar, c] else [c]

def jsonEscape (s : PyStr) : PyStr := (s.map jsonEscapeChar).flatten

def jsonStr (s : PyStr) : PyStr := dquoteChar :: (jsonEscape s ++ [dquoteChar])

/-- Model of `json.dumps` on a list of strings (comma-space separated). -/
def jsonDumps (l : List PyStr) : PyStr :=
  '[' :: (List.intercalate (", ".toList) (l.map jsonStr)) ++ [']']

/-- A file descriptor as produced by `fetch_repository_tree`. -/
structure FileInfo where
  path : PyStr
  name : PyStr
  extension : PyStr
  sha : PyStr
  size : Nat
  url : PyStr
  download_url : PyStr
  source_link : PyStr
  raw_url : PyStr
  blob_url : PyStr
deriving DecidableEq

/-- The chunk-metadata dictionary built by `process_file` (one per kept
chunk).  String-valued entries are `PyStr`, ints are `Nat`, floats are `ℚ`. -/
structure ChunkRecord where
  id : PyStr
  document : PyStr
  file_name : PyStr
  file_path : PyStr
  file_type : PyStr
  file_size : Nat
  source_link : PyStr
  github_url : PyStr
  raw_url : PyStr
  blob_url : PyStr
  chunk_index : Nat
  chunk_length : Nat
  chunk_method : PyStr
  has_images : Bool
  image_links : PyStr
  image_count : Nat
  attachment_links : PyStr
  has_links : Bool
  external_links : PyStr
  language : PyStr
  has_code : Bool
  has_documentation : Bool
  function_names : PyStr
  class_names : PyStr
  import_statements : PyStr
  keywords : PyStr
  repo_name : PyStr
  repo_owner : PyStr
  branch : PyStr
  commit_sha : PyStr
  created_at : PyStr
  embedding_model : PyStr
  content_quality_score : ℚ
  semantic_density_score : ℚ
  information_value_score : ℚ
deriving DecidableEq

/-- The chunk-relevance heuristic for an image link: basename (lowercased)
contained in the lowercased chunk, or any dot-separated part of it contained. -/
def imgRelevant (chunk img : PyStr) : Bool :=
  let n := pyLower (pathBasename img)
  pyContains n (pyLower chunk) ||
    (splitOnChar '.' n).any (fun part => pyContains part (pyLower chunk))

def chunkImagesOf (images : List PyStr) (chunk : PyStr) : List PyStr :=
  images.filter (imgRelevant chunk)

/-- The chunk-relevance heuristic for an attachment link: lowercased basename
contained in the lowercased chunk. -/
def chunkAttachmentsOf (atts : List PyStr) (chunk : PyStr) : List PyStr :=
  atts.filter (fun a => pyContains (pyLower (pathBasename a)) (pyLower chunk))

/-- The docs URL: rewrite a `.rst` suffix of the path to `.html` and prefix
the documentation host. -/
def docsUrlOf (path : PyStr) : PyStr :=
  let docsPath :=
    if endsWithL (".rst".toList) path then path.take (path.length - 4) ++ (".html".toList)
    else path
  ("https://docs.beagle.cc/".toList) ++ docsPath

/-- One chunk-metadata dictionary, as assembled in the loop body of
`process_file` for the enumerated chunk `(i, chunk)`.  `uuidGen` models the
external `uuid.uuid4()` calls and `now` the `datetime.now().isoformat()`
timestamp. -/
def mkChunkRecord (fi : FileInfo) (repoOwner repoName branch : PyStr)
    (uuidGen : Nat → PyStr) (now modelName : PyStr)
    (ext : ExtractResult) (an : ContentAnalysis) (i : Nat) (chunk : PyStr) :
    ChunkRecord :=
  let chunkImages := chunkImagesOf ext.images chunk
  let chunkAttachments := chunkAttachmentsOf ext.attachments chunk
  { id := uuidGen i,
    document := chunk,
    file_name := fi.name,
    file_path := fi.path,
    file_type := fi.extension,
    file_size := fi.size,
    source_link := docsUrlOf fi.path,
    github_url := fi.source_link,
    raw_url := fi.raw_url,
    blob_url := fi.blob_url,
    chunk_index := i,
    chunk_length := chunk.length,
    chunk_method := "semantic".toList,
    has_images := decide (0 < chunkImages.length),
    image_links := jsonDumps chunkImages,
    image_count := chunkImages.length,
    attachment_links := jsonDumps chunkAttachments,
    has_links := decide (0 < ext.externals.length),
    external_links := jsonDumps (ext.externals.take 10),
    language := an.language,
    has_code := an.has_code,
    has_documentation := an.has_documentation,
    function_names := jsonDumps an.function_names,
    class_names := jsonDumps an.class_names,
    import_statements := jsonDumps an.import_statements,
    keywords := jsonDumps an.keywords,
    repo_name := repoName,
    repo_owner := repoOwner,
    branch := branch,
    commit_sha := "latest".toList,
    created_at := now,
    embedding_model := modelName,
    content_quality_score := an.content_quality_score,
    semantic_density_score := an.semantic_density_score,
    information_value_score := an.information_value_score }

/-- The base URL passed to `extract_images_and_links` by `process_file`. -/
def repoBaseUrl (owner repo branch : PyStr) : PyStr :=
  ("https://github.com/".toList) ++ owner ++ ("/".toList) ++ repo ++
    ("/blob/".toList) ++ branch ++ ("/".toList)

/-- A chunk is kept iff its stripped length is not below 30 (`continue`
otherwise). -/
def chunkKeep (chunk : PyStr) : Bool := !(decide ((pyStrip chunk).length < 30))

/-- `process_file`: fetch (modelled by the `fetched` parameter, `none` for an
undecodable/failed fetch), skip empty or short content, extract links and
analyze once per file, chunk via the external chunker (the `chunker`
parameter models `chonkie.CodeChunker`), and build one record per kept
enumerated chunk. -/
def processFile (fetched : Option PyStr) (chunker : PyStr → List PyStr)
    (fi : FileInfo) (repoOwner repoName branch : PyStr)
    (uuidGen : Nat → PyStr) (now modelName : PyStr) : List ChunkRecord :=
  match fetched with
  | none => []
  | some content =>
    if content.isEmpty || decide ((pyStrip content).length < 50) then []
    else
      let ext := extractImagesAndLinks content (repoBaseUrl repoOwner repoName branch)
      let an := analyzeContent content fi.extension
      (chunker content).enum.filterMap (fun ic =>
        if chunkKeep ic.2 then
          some (mkChunkRecord fi repoOwner repoName branch uuidGen now modelName ext an ic.1 ic.2)
        else none)

/-! ### `store_chunks_batch` -/

/-- One row of the column-wise `insert_data` of `store_chunks_batch` (the 35
schema fields, including the embedding vector). -/
structure StoredRow where
  id : PyStr
  document : PyStr
  embedding : List ℚ
  file_name : PyStr
  file_path : PyStr
  file_type : PyStr
  file_size : Nat
  source_link : PyStr
  raw_url : PyStr
  blob_url : PyStr
  chunk_index : Nat
  chunk_length : Nat
  chunk_method : PyStr
  has_images : Bool
  image_links : PyStr
  image_count : Nat
  attachment_links : PyStr
  language : PyStr
  has_code : Bool
  has_documentation : Bool
  has_links : Bool
  external_links : PyStr
  function_names : PyStr
  class_names : PyStr
  import_statements : PyStr
  keywords : PyStr
  repo_name : PyStr
  repo_owner : PyStr
  branch : PyStr
  commit_sha : PyStr
  created_at : PyStr
  embedding_model : PyStr
  content_quality_score : ℚ
  semantic_density_score : ℚ
  information_value_score : ℚ
deriving DecidableEq

/-- The per-item value preparation of `store_chunks_batch`: every sliced
string field is truncated with the slice bound used in the source; `id`,
numeric and boolean fields are passed through unchanged. -/
def prepareRow (item : ChunkRecord) (emb : List ℚ) : StoredRow :=
  { id := item.id,
    document := item.document.take 65535,
    embedding := emb,
    file_name := item.file_name.take 500,
    file_path := item.file_path.take 1000,
    file_type := item.file_type.take 50,
    file_size := item.file_size,
    source_link := item.source_link.take 2000,
    raw_url := item.raw_url.take 2000,
    blob_url := item.blob_url.take 2000,
    chunk_index := item.chunk_index,
    chunk_length := item.chunk_length,
    chunk_method := item.chunk_method.take 50,
    has_images := item.has_images,
    image_links := item.image_links.take 5000,
    image_count := item.image_count,
    attachment_links := item.attachment_links.take 5000,
    language := item.language.take 50,
    has_code := item.has_code,
    has_documentation := item.has_documentation,
    has_links := item.has_links,
    external_links := item.external_links.take 3000,
    function_names := item.function_names.take 2000,
    class_names := item.class_names.take 1000,
    import_statements := item.import_statements.take 2000,
    keywords := item.keywords.take 2000,
    repo_name := item.repo_name.take 200,
    repo_owner := item.repo_owner.take 100,
    branch := item.branch.take 100,
    commit_sha := item.commit_sha.take 100,
    created_at := item.created_at.take 50,
    embedding_model := item.embedding_model.take 100,
    content_quality_score := item.content_quality_score,
    semantic_density_score := item.semantic_density_score,
    information_value_score := item.information_value_score }

/-- Slices of size `bs` (the `range(0, len, batch_size)` loop). -/
def batchSlicesAux (bs : Nat) : Nat → List α → List (List α)
  | _, [] => []
  | 0, _ => []
  | fuel + 1, l => l.take bs :: batchSlicesAux bs fuel (l.drop bs)

def batchSlices (bs : Nat) (l : List α) : List (List α) := batchSlicesAux bs l.length l

/-- `store_chunks_batch`: slice records and embeddings into batches of
`batchSize`, prepare each batch column-wise (row view here), and concatenate
everything that is inserted. -/
def storeChunksBatch (items : List ChunkRecord) (embeddings : List (List ℚ))
    (batchSize : Nat) : List StoredRow :=
  (((batchSlices batchSize items).zip (batchSlices batchSize embeddings)).map
    (fun p => List.zipWith prepareRow p.1 p.2)).flatten

/-! ### `fetch_repository_tree` -/

/-- The supported-extension set of the ingester. -/
def supportedExtensions : List PyStr :=
  [ ".md".toList, ".txt".toList, ".rst".toList, ".py".toList, ".js".toList,
    ".ts".toList, ".java".toList, ".cpp".toList, ".c".toList, ".h".toList,
    ".css".toList, ".html".toList, ".xml".toList, ".json".toList,
    ".yaml".toList, ".yml".toList, ".toml".toList, ".ini".toList,
    ".sh".toList, ".bat".toList, ".ps1".toList, ".go".toList, ".rs".toList,
    ".rb".toList, ".php".toList, ".sql".toList, ".r".toList ]

/-- One entry of the recursive git tree returned by the GitHub API. -/
structure TreeItem where
  type : PyStr
  path : PyStr
  sha : PyStr
  size : Nat
  url : PyStr
deriving DecidableEq

/-- The GitHub API environment seen by `fetch_repository_tree`: the status of
the repository-info request (which does not depend on the branch) and, per
branch, the status and payload of the recursive-tree request. -/
structure GitHubEnv where
  repoInfoStatus : Nat
  treeStatus : PyStr → Nat
  tree : PyStr → List TreeItem

inductive FetchErr where
  | valueError : FetchErr
  | httpError : Nat → FetchErr
deriving DecidableEq

/-- The file-descriptor construction of `fetch_repository_tree` for one
eligible blob entry. -/
def buildFileInfo (owner repo branch : PyStr) (it : TreeItem) : FileInfo :=
  let rawU := ("https://raw.githubusercontent.com/".toList) ++ owner ++ ("/".toList) ++
    repo ++ ("/".toList) ++ branch ++ ("/".toList) ++ it.path
  let blobU := ("https://github.com/".toList) ++ owner ++ ("/".toList) ++ repo ++
    ("/blob/".toList) ++ branch ++ ("/".toList) ++ it.path
  { path := it.path,
    name := pathBasename it.path,
    extension := pyLower (pathSuffix it.path),
    sha := it.sha,
    size := it.size,
    url := it.url,
    download_url := rawU,
    source_link := blobU,
    raw_url := rawU,
    blob_url := blobU }

/-- Tree filter: blob entries whose lowercased suffix is supported or absent. -/
def eligibleTreeItem (it : TreeItem) : Bool :=
  it.type == ("blob".toList) &&
    (supportedExtensions.contains (pyLower (pathSuffix it.path)) ||
      (pathSuffix it.path).isEmpty)

/-- One pass of `fetch_repository_tree`: check the repository-info response
(404 triggers the fallback continuation only when the requested branch is
"main", otherwise a `ValueError`; other non-success statuses raise), then
fetch the recursive tree for the branch (`raise_for_status`) and build the
filtered file list. -/
def fetchTreeBody (env : GitHubEnv) (owner repo branch : PyStr)
    (fallback : Except FetchErr (List FileInfo)) : Except FetchErr (List FileInfo) :=
  if env.repoInfoStatus = 404 then
    (if branch = ("main".toList) then fallback else Except.error FetchErr.valueError)
  else if 400 ≤ env.repoInfoStatus then Except.error (FetchErr.httpError env.repoInfoStatus)
  else if 400 ≤ env.treeStatus branch then
    Except.error (FetchErr.httpError (env.treeStatus branch))
  else
    Except.ok (((env.tree branch).filter eligibleTreeItem).map (buildFileInfo owner repo branch))

/-- `fetch_repository_tree`: the single recursive fallback call replaces the
branch by "master"; inside the fallback the branch is no longer "main", so
the recursion cannot go deeper (its continuation is the `ValueError` raise). -/
def fetchRepositoryTree (env : GitHubEnv) (owner repo branch : PyStr) :
    Except FetchErr (List FileInfo) :=
  fetchTreeBody env owner repo branch
    (fetchTreeBody env owner repo ("master".toList) (Except.error FetchErr.valueError))

/-! ### `ingest_repository` -/

/-- Outcome record for `ingest_repository`, with trace flags recording
whether the embedding and storage stages were invoked. -/
structure IngestOutcome where
  success : Bool
  message : Option PyStr
  embeddingInvoked : Bool
  storageInvoked : Bool
  chunksGenerated : Nat
deriving DecidableEq

/-- The parallel fan-in of `ingest_repository`: each per-file future either
yields a record list or raises; a raising file is logged and contributes
nothing. -/
def ingestCollectChunks (fileResults : List (Except PyStr (List ChunkRecord))) :
    List ChunkRecord :=
  (fileResults.map (fun r =>
    match r with
    | Except.ok l => l
    | Except.error _ => [])).flatten

/-- The post-processing decision of `ingest_repository` (lines 900-915): an
empty aggregate chunk list returns an unsuccessful outcome with a message
before the embedding and storage stages run; otherwise both stages run and
the successful summary is returned. -/
def ingestRepository (fileResults : List (Except PyStr (List ChunkRecord))) :
    IngestOutcome :=
  let allChunks := ingestCollectChunks fileResults
  if allChunks.isEmpty then
    { success := false,
      message := some ("No processable content found".toList),
      embeddingInvoked := false,
      storageInvoked := false,
      chunksGenerated := 0 }
  else
    { success := true,
      message := none,
      embeddingInvoked := true,
      storageInvoked := true,
      chunksGenerated := allChunks.length }

/-! ### Concrete inputs used by witnesses and counterexamples -/

def emptyFileInfo : FileInfo :=
  { path := [], name := [], extension := [], sha := [], size := 0, url := [],
    download_url := [], source_link := [], raw_url := [], blob_url := [] }

def emptyChunkRecord : ChunkRecord :=
  { id := [], document := [], file_name := [], file_path := [], file_type := [],
    file_size := 0, source_link := [], github_url := [], raw_url := [], blob_url := [],
    chunk_index := 0, chunk_length := 0, chunk_method := [], has_images := false,
    image_links := [], image_count := 0, attachment_links := [], has_links := false,
    external_links := [], language := [], has_code := false, has_documentation := false,
    function_names := [], class_names := [], import_statements := [], keywords := [],
    repo_name := [], repo_owner := [], branch := [], commit_sha := [], created_at := [],
    embedding_model := [], content_quality_score := 0, semantic_density_score := 0,
    information_value_score := 0 }

def sampleTreeItem : TreeItem :=
  { type := "blob".toList, path := "README.md".toList, sha := "abc".toList, size := 10,
    url := "u".toList }

/-- A GitHub environment in which the repository exists (repository-info
request answers 200) but only the branch "master" exists: the recursive-tree
request answers 404 for every other branch and returns one markdown blob for
"master". -/
def envMasterOnly : GitHubEnv :=
  { repoInfoStatus := 200,
    treeStatus := fun b => if b = ("master".toList) then 200 else 404,
    tree := fun b => if b = ("master".toList) then [sampleTreeItem] else [] }

def c10SampleChunker (_ : PyStr) : List PyStr := [List.replicate 30 'a']

def c10SampleOut : List ChunkRecord :=
  processFile (some (List.replicate 50 'a')) c10SampleChunker
    emptyFileInfo [] [] [] (fun _ => []) [] []

/-! ## Helper lemmas -/

theorem list_toFinset_dedup (l : List PyStr) : l.dedup.toFinset = l.toFinset := by
  ext a
  simp [List.mem_toFinset, List.mem_dedup]

theorem list_toFinset_map (f : PyStr → PyStr) (l : List PyStr) :
    (l.map f).toFinset = l.toFinset.image f := by
  ext b
  simp [List.mem_toFinset, List.mem_map, Finset.mem_image]

theorem mem_zipWith_exists {α β γ : Type} (f : α → β → γ)
    (as : List α) (bs : List β) (x : γ) (h : x ∈ List.zipWith f as bs) :
    ∃ a ∈ as, ∃ b ∈ bs, x = f a b := by
  induction as generalizing bs with
  | nil => simp [List.zipWith] at h
  | cons a as ih =>
    cases bs with
    | nil => simp [List.zipWith] at h
    | cons b bs =>
      rw [List.zipWith_cons_cons] at h
      rcases List.mem_cons.1 h with h1 | h2
      · exact ⟨a, List.mem_cons_self _ _, b, List.mem_cons_self _ _, h1⟩
      · rcases ih bs h2 with ⟨a2, ha, b2, hb, he⟩
        exact ⟨a2, List.mem_cons_of_mem _ ha, b2, List.mem_cons_of_mem _ hb, he⟩

theorem mem_batchSlicesAux {α : Type} (bs : Nat) :
    ∀ (fuel : Nat) (l : List α) (b : List α),
      b ∈ batchSlicesAux bs fuel l → ∀ x ∈ b, x ∈ l := by
  intro fuel
  induction fuel with
  | zero =>
    intro l b h
    cases l <;> simp [batchSlicesAux] at h
  | succ n ih =>
    intro l b h x hx
    cases l with
    | nil => simp [batchSlicesAux] at h
    | cons c cs =>
      rw [show batchSlicesAux bs (n + 1) (c :: cs) =
        (c :: cs).take bs :: batchSlicesAux bs n ((c :: cs).drop bs) from rfl] at h
      rcases List.mem_cons.1 h with h1 | h2
      · exact List.take_subset bs _ (h1 ▸ hx)
      · exact List.drop_subset bs _ (ih _ _ h2 x hx)

theorem filterMap_if_fst (p : PyStr → Bool) (l : List (Nat × PyStr)) :
    l.filterMap (fun ic => if p ic.2 then some ic.1 else none) =
      (l.filter (fun ic => p ic.2)).map Prod.fst := by
  induction l with
  | nil => rfl
  | cons a l ih =>
    by_cases h : p a.2
    · simp [List.filterMap_cons, List.filter_cons, h, ih]
    · simp [List.filterMap_cons, List.filter_cons, h, ih]

/-- When the file-level guard passes, `processFile` is the filterMap over the
enumerated chunks. -/
theorem processFile_eq_of_guard_false (content : PyStr) (chunker : PyStr → List PyStr)
    (fi : FileInfo) (owner repo branch : PyStr) (uuidGen : Nat → PyStr) (now modelName : PyStr)
    (hg : (content.isEmpty || decide ((pyStrip content).length < 50)) = false) :
    processFile (some content) chunker fi owner repo branch uuidGen now modelName =
      (chunker content).enum.filterMap (fun ic =>
        if chunkKeep ic.2 then
          some (mkChunkRecord fi owner repo branch uuidGen now modelName
            (extractImagesAndLinks content (repoBaseUrl owner repo branch))
            (analyzeContent content fi.extension) ic.1 ic.2)
        else none) := by
  show (if content.isEmpty || decide ((pyStrip content).length < 50) then ([] : List ChunkRecord)
    else _) = _
  rw [hg]
  rfl

/-- When the file-level guard fires, `processFile` returns no records. -/
theorem processFile_eq_of_guard_true (content : PyStr) (chunker : PyStr → List PyStr)
    (fi : FileInfo) (owner repo branch : PyStr) (uuidGen : Nat → PyStr) (now modelName : PyStr)
    (hg : (content.isEmpty || decide ((pyStrip content).length < 50)) = true) :
    processFile (some content) chunker fi owner repo branch uuidGen now modelName = [] := by
  show (if content.isEmpty || decide ((pyStrip content).length < 50) then ([] : List ChunkRecord)
    else _) = _
  rw [hg]
  rfl

/-- The chunk indices of the produced records are the positions of the kept
chunks in the chunker output. -/
theorem processFile_map_index (content : PyStr) (chunker : PyStr → List PyStr)
    (fi : FileInfo) (owner repo branch : PyStr) (uuidGen : Nat → PyStr) (now modelName : PyStr)
    (hg : (content.isEmpty || decide ((pyStrip content).length < 50)) = false) :
    (processFile (some content) chunker fi owner repo branch uuidGen now modelName).map
        (fun r => r.chunk_index) =
      ((chunker content).enum.filter (fun ic => chunkKeep ic.2)).map Prod.fst := by
  rw [processFile_eq_of_guard_false content chunker fi owner repo branch uuidGen now modelName hg]
  rw [List.map_filterMap, ← filterMap_if_fst]
  congr 1
  funext ic
  by_cases h : chunkKeep ic.2
  · rw [if_pos h, if_pos h]
    rfl
  · rw [if_neg h, if_neg h]
    rfl

/-! ## Claims -/

/-- C1: the claim says that for a repository existing only under the branch
"master", `fetch_repository_tree(owner, name, "main")` falls back once to
"master" and returns that branch's file list.  The code attaches the fallback
to the repository-info request, which succeeds (200) whether or not the
branch exists, so for a master-only repository the tree request for "main"
raises an HTTP 404 via `raise_for_status` and no fallback happens, while the
direct call with "master" succeeds and returns the one-file list. -/
theorem c1_branch_fallback_code_bug :
    fetchRepositoryTree envMasterOnly ("o".toList) ("r".toList) ("main".toList) =
      Except.error (FetchErr.httpError 404) ∧
    (fetchRepositoryTree envMasterOnly ("o".toList) ("r".toList) ("master".toList)).toOption.map
      List.length = some 1 :=
  ⟨rfl, rfl⟩

/-- C2 counterexample: with file content of 60 characters and a chunker
output whose middle chunk is below the 30-character minimum, the two produced
records carry chunk indices 0 and 2, not the contiguous range 0..1 the claim
requires for two records. -/
theorem c2_counterexample :
    ((processFile (some (List.replicate 60 'a'))
        (fun _ => [List.replicate 30 'a', ['x'], List.replicate 30 'b'])
        emptyFileInfo [] [] [] (fun _ => []) [] []).map (fun r => r.chunk_index)) = [0, 2] ∧
    ((0 : Nat) :: [2] ≠ List.range 2) := by
  decide

/-- C2 (amended): the chunk indices of the records produced by `process_file`
are strictly increasing with no duplicates (they are the positions of the
kept chunks in the chunker output), and they are exactly `0..k-1` when the
file passes the 50-character guard and every chunk meets the 30-character
minimum. -/
theorem c2_chunk_index_strict_mono (content : PyStr) (chunker : PyStr → List PyStr)
    (fi : FileInfo) (owner repo branch : PyStr) (uuidGen : Nat → PyStr) (now modelName : PyStr) :
    List.Pairwise (· < ·)
      ((processFile (some content) chunker fi owner repo branch uuidGen now modelName).map
        (fun r => r.chunk_index)) ∧
    (content.isEmpty = false → 50 ≤ (pyStrip content).length →
      (∀ c ∈ chunker content, chunkKeep c = true) →
      (processFile (some content) chunker fi owner repo branch uuidGen now modelName).map
          (fun r => r.chunk_index) = List.range (chunker content).length) := by
  constructor
  · by_cases hg : (content.isEmpty || decide ((pyStrip content).length < 50)) = true
    · rw [processFile_eq_of_guard_true content chunker fi owner repo branch uuidGen now modelName hg]
      exact List.Pairwise.nil
    · have hg2 : (content.isEmpty || decide ((pyStrip content).length < 50)) = false :=
        Bool.eq_false_iff.2 hg
      rw [processFile_map_index content chunker fi owner repo branch uuidGen now modelName hg2]
      have hsub : List.Sublist
          (((chunker content).enum.filter (fun ic => chunkKeep ic.2)).map Prod.fst)
          ((chunker content).enum.map Prod.fst) :=
        (List.filter_sublist _).map _
      rw [List.enum_map_fst] at hsub
      exact (List.pairwise_lt_range _).sublist hsub
  · intro h1 h2 hall
    have hg : (content.isEmpty || decide ((pyStrip content).length < 50)) = false := by
      rw [h1, decide_eq_false (Nat.not_lt.2 h2)]
      rfl
    rw [processFile_map_index content chunker fi owner repo branch uuidGen now modelName hg]
    have hfilter : (chunker content).enum.filter (fun ic => chunkKeep ic.2) =
        (chunker content).enum := by
      apply List.filter_eq_self.2
      intro x hx
      have hx2 : x.2 ∈ chunker content := by
        rw [List.enum_eq_zip_range] at hx
        exact (List.of_mem_zip hx).2
      exact hall x.2 hx2
    rw [hfilter, List.enum_map_fst]

/-- C2 witness: a 60-character file whose two chunks both pass the minimum
yields chunk indices `[0, 1] = range 2`. -/
theorem c2_witness :
    (processFile (some (List.replicate 60 'a'))
        (fun _ => [List.replicate 30 'a', List.replicate 30 'b'])
        emptyFileInfo [] [] [] (fun _ => []) [] []).map (fun r => r.chunk_index) =
      List.range 2 :=
  (c2_chunk_index_strict_mono (List.replicate 60 'a')
      (fun _ => [List.replicate 30 'a', List.replicate 30 'b'])
      emptyFileInfo [] [] [] (fun _ => []) [] []).2 (by decide) (by decide) (by decide)

/-- C3 counterexample: a file of 40 characters has at least 30 trimmed
characters, yet `process_file` skips it (the file-level threshold in the code
is 50, not 30), even with a chunker that would return the whole content as a
single acceptable chunk. -/
theorem c3_counterexample :
    30 ≤ (pyStrip (List.replicate 40 'a')).length ∧
    processFile (some (List.replicate 40 'a')) (fun s => [s])
      emptyFileInfo [] [] [] (fun _ => []) [] [] = [] := by
  decide

/-- C3 (amended): `process_file` skips a file exactly when its decoded
content is empty or has fewer than 50 trimmed characters; when the file
passes, a record with index `i` and text `c` exists for an enumerated chunk
`(i, c)` exactly when the chunk has at least 30 trimmed characters.  In
particular an empty or 10-character file produces zero records. -/
theorem c3_length_thresholds (content : PyStr) (chunker : PyStr → List PyStr)
    (fi : FileInfo) (owner repo branch : PyStr) (uuidGen : Nat → PyStr) (now modelName : PyStr) :
    ((content.isEmpty = true ∨ (pyStrip content).length < 50) →
      processFile (some content) chunker fi owner repo branch uuidGen now modelName = []) ∧
    (content.isEmpty = false → 50 ≤ (pyStrip content).length →
      ∀ i c, (i, c) ∈ (chunker content).enum →
        (30 ≤ (pyStrip c).length ↔
          ∃ r ∈ processFile (some content) chunker fi owner repo branch uuidGen now modelName,
            r.chunk_index = i ∧ r.document = c)) := by
  constructor
  · intro h
    apply processFile_eq_of_guard_true
    rcases h with h | h
    · rw [h, Bool.true_or]
    · rw [decide_eq_true h, Bool.or_true]
  · intro h1 h2 i c hic
    have hg : (content.isEmpty || decide ((pyStrip content).length < 50)) = false := by
      rw [h1, decide_eq_false (Nat.not_lt.2 h2)]
      rfl
    rw [processFile_eq_of_guard_false content chunker fi owner repo branch uuidGen now modelName hg]
    constructor
    · intro hc
      have hk : chunkKeep c = true := by
        unfold chunkKeep
        rw [decide_eq_false (Nat.not_lt.2 hc)]
        rfl
      refine ⟨mkChunkRecord fi owner repo branch uuidGen now modelName
          (extractImagesAndLinks content (repoBaseUrl owner repo branch))
          (analyzeContent content fi.extension) i c,
        List.mem_filterMap.2 ⟨(i, c), hic, ?_⟩, rfl, rfl⟩
      rw [if_pos hk]
    · rintro ⟨r, hr, hidx, hdoc⟩
      rcases List.mem_filterMap.1 hr with ⟨jd, hjd, heq⟩
      by_cases hk : chunkKeep jd.2
      · rw [if_pos hk] at heq
        have hrd : r.document = jd.2 := by
          have hre := Option.some.inj heq
          rw [← hre]
          rfl
        have hcd : c = jd.2 := by
          rw [← hdoc, hrd]
        rw [hcd]
        unfold chunkKeep at hk
        rw [Bool.not_eq_true'] at hk
        exact Nat.not_lt.1 (of_decide_eq_false hk)
      · rw [if_neg hk] at heq
        exact Option.noConfusion heq

/-- C3 witness: a 10-character file yields no records, and a 60-character
file with one 30-character chunk yields a record carrying that chunk at
index 0. -/
theorem c3_witness :
    (processFile (some (List.replicate 10 'a')) (fun s => [s])
      emptyFileInfo [] [] [] (fun _ => []) [] [] = []) ∧
    (∃ r ∈ processFile (some (List.replicate 60 'a')) (fun _ => [List.replicate 30 'b'])
        emptyFileInfo [] [] [] (fun _ => []) [] [],
      r.chunk_index = 0 ∧ r.document = List.replicate 30 'b') :=
  ⟨(c3_length_thresholds (List.replicate 10 'a') (fun s => [s])
      emptyFileInfo [] [] [] (fun _ => []) [] []).1 (Or.inr (by decide)),
   ((c3_length_thresholds (List.replicate 60 'a') (fun _ => [List.replicate 30 'b'])
      emptyFileInfo [] [] [] (fun _ => []) [] []).2 (by decide) (by decide) 0
      (List.replicate 30 'b') (by decide)).1 (by decide)⟩

/-- C4 counterexample: `store_chunks_batch` does not truncate the `id`
column, so a record whose id has 101 characters is inserted with an id of
length 101, exceeding the declared maximum of 100. -/
theorem c4_counterexample :
    ((storeChunksBatch [{ emptyChunkRecord with id := List.replicate 101 'a' }] [[]] 100).map
      (fun r => r.id.length)) = [101] ∧ ¬(101 ≤ 100) := by
  decide

/-- C4 (amended): every row written by `store_chunks_batch` has each sliced
string field truncated to its declared schema maximum (document 65535,
file_name 500, file_path 1000, file_type 50, source/raw/blob links 2000,
chunk_method 50, image/attachment links 5000, language 50, external_links
3000, function_names/import_statements/keywords 2000, class_names 1000,
repo_name 200, repo_owner/branch/commit_sha/embedding_model 100, created_at
50); the `id` field alone is passed through unmodified. -/
theorem c4_truncation_law (items : List ChunkRecord) (embs : List (List ℚ)) (row : StoredRow)
    (h : row ∈ storeChunksBatch items embs 100) :
    row.document.length ≤ 65535 ∧ row.file_name.length ≤ 500 ∧ row.file_path.length ≤ 1000 ∧
    row.file_type.length ≤ 50 ∧ row.source_link.length ≤ 2000 ∧ row.raw_url.length ≤ 2000 ∧
    row.blob_url.length ≤ 2000 ∧ row.chunk_method.length ≤ 50 ∧
    row.image_links.length ≤ 5000 ∧ row.attachment_links.length ≤ 5000 ∧
    row.language.length ≤ 50 ∧ row.external_links.length ≤ 3000 ∧
    row.function_names.length ≤ 2000 ∧ row.class_names.length ≤ 1000 ∧
    row.import_statements.length ≤ 2000 ∧ row.keywords.length ≤ 2000 ∧
    row.repo_name.length ≤ 200 ∧ row.repo_owner.length ≤ 100 ∧ row.branch.length ≤ 100 ∧
    row.commit_sha.length ≤ 100 ∧ row.created_at.length ≤ 50 ∧
    row.embedding_model.length ≤ 100 ∧ ∃ item ∈ items, row.id = item.id := by
  unfold storeChunksBatch at h
  rcases List.mem_flatten.1 h with ⟨rows, hrows, hrow⟩
  rcases List.mem_map.1 hrows with ⟨p, hp, rfl⟩
  rcases mem_zipWith_exists prepareRow p.1 p.2 row hrow with ⟨item, hitem, emb, hemb, rfl⟩
  have hmem : item ∈ items :=
    mem_batchSlicesAux 100 _ items p.1 (List.of_mem_zip hp).1 item hitem
  exact ⟨List.length_take_le _ _, List.length_take_le _ _, List.length_take_le _ _,
    List.length_take_le _ _, List.length_take_le _ _, List.length_take_le _ _,
    List.length_take_le _ _, List.length_take_le _ _, List.length_take_le _ _,
    List.length_take_le _ _, List.length_take_le _ _, List.length_take_le _ _,
    List.length_take_le _ _, List.length_take_le _ _, List.length_take_le _ _,
    List.length_take_le _ _, List.length_take_le _ _, List.length_take_le _ _,
    List.length_take_le _ _, List.length_take_le _ _, List.length_take_le _ _,
    List.length_take_le _ _, ⟨item, hmem, rfl⟩⟩

/-- C4 witness: the truncation law applied to a one-record batch. -/
theorem c4_witness :
    (prepareRow emptyChunkRecord []).document.length ≤ 65535 ∧
    (prepareRow emptyChunkRecord []).file_name.length ≤ 500 ∧
    (prepareRow emptyChunkRecord []).file_path.length ≤ 1000 ∧
    (prepareRow emptyChunkRecord []).file_type.length ≤ 50 ∧
    (prepareRow emptyChunkRecord []).source_link.length ≤ 2000 ∧
    (prepareRow emptyChunkRecord []).raw_url.length ≤ 2000 ∧
    (prepareRow emptyChunkRecord []).blob_url.length ≤ 2000 ∧
    (prepareRow emptyChunkRecord []).chunk_method.length ≤ 50 ∧
    (prepareRow emptyChunkRecord []).image_links.length ≤ 5000 ∧
    (prepareRow emptyChunkRecord []).attachment_links.length ≤ 5000 ∧
    (prepareRow emptyChunkRecord []).language.length ≤ 50 ∧
    (prepareRow emptyChunkRecord []).external_links.length ≤ 3000 ∧
    (prepareRow emptyChunkRecord []).function_names.length ≤ 2000 ∧
    (prepareRow emptyChunkRecord []).class_names.length ≤ 1000 ∧
    (prepareRow emptyChunkRecord []).import_statements.length ≤ 2000 ∧
    (prepareRow emptyChunkRecord []).keywords.length ≤ 2000 ∧
    (prepareRow emptyChunkRecord []).repo_name.length ≤ 200 ∧
    (prepareRow emptyChunkRecord []).repo_owner.length ≤ 100 ∧
    (prepareRow emptyChunkRecord []).branch.length ≤ 100 ∧
    (prepareRow emptyChunkRecord []).commit_sha.length ≤ 100 ∧
    (prepareRow emptyChunkRecord []).created_at.length ≤ 50 ∧
    (prepareRow emptyChunkRecord []).embedding_model.length ≤ 100 ∧
    ∃ item ∈ [emptyChunkRecord], (prepareRow emptyChunkRecord []).id = item.id :=
  c4_truncation_law [emptyChunkRecord] [[]] (prepareRow emptyChunkRecord []) (by decide)

/-- C5: for every input text, code-elements dictionary and documentation
flag, each of the three scores of `_calculate_quality_scores` lies in the
closed interval [0, 1]: the content-quality score is the satisfied fraction
of the 6 boolean indicators, the semantic-density score is the unique/total
word ratio scaled by 2 and clamped at 1 (0 for no words), and the
information-value score is the sum of the five capped counts divided by 50. -/
theorem c5_quality_scores_bounded (content : PyStr) (ce : CodeElements) (hasDoc : Bool) :
    0 ≤ (calculateQualityScores content ce hasDoc).content_quality_score ∧
    (calculateQualityScores content ce hasDoc).content_quality_score ≤ 1 ∧
    0 ≤ (calculateQualityScores content ce hasDoc).semantic_density_score ∧
    (calculateQualityScores content ce hasDoc).semantic_density_score ≤ 1 ∧
    0 ≤ (calculateQualityScores content ce hasDoc).information_value_score ∧
    (calculateQualityScores content ce hasDoc).information_value_score ≤ 1 := by
  have hcq : (calculateQualityScores content ce hasDoc).content_quality_score =
      ((qualityIndicators content ce hasDoc).count true : ℚ) /
        ((qualityIndicators content ce hasDoc).length : ℚ) := rfl
  have hsd : (calculateQualityScores content ce hasDoc).semantic_density_score =
      min ((if 0 < totalWordCount content then
        ((uniqueWordCount content : ℚ)) / ((totalWordCount content : ℚ)) else 0) * 2) 1 := rfl
  have hiv : (calculateQualityScores content ce hasDoc).information_value_score =
      ((((((infoIndicators content ce).zip infoCaps).map (fun p => min p.1 p.2)).sum : ℕ) : ℚ)) /
        (((infoCaps.sum : ℕ) : ℚ)) := rfl
  have hlen : (qualityIndicators content ce hasDoc).length = 6 := rfl
  have hcount : (qualityIndicators content ce hasDoc).count true ≤ 6 :=
    hlen ▸ List.count_le_length true (qualityIndicators content ce hasDoc)
  have hdens : (0 : ℚ) ≤ (if 0 < totalWordCount content then
      ((uniqueWordCount content : ℚ)) / ((totalWordCount content : ℚ)) else 0) := by
    split
    · positivity
    · exact le_refl 0
  have hsum : ((((infoIndicators content ce).zip infoCaps).map (fun p => min p.1 p.2)).sum) ≤ 50 := by
    simp only [infoIndicators, infoCaps, List.zip_cons_cons, List.zip_nil_right,
      List.map_cons, List.map_nil, List.sum_cons, List.sum_nil]
    omega
  refine ⟨?_, ?_, ?_, ?_, ?_, ?_⟩
  · rw [hcq, hlen]
    exact div_nonneg (Nat.cast_nonneg _) (by norm_num)
  · rw [hcq, hlen]
    rw [div_le_one (by norm_num)]
    exact_mod_cast hcount
  · rw [hsd]
    exact le_min (by positivity) zero_le_one
  · rw [hsd]
    exact min_le_right _ _
  · rw [hiv]
    exact div_nonneg (Nat.cast_nonneg _) (Nat.cast_nonneg _)
  · rw [hiv]
    have h50 : ((infoCaps.sum : ℚ)) = 50 := by norm_num [infoCaps]
    rw [h50, div_le_one (by norm_num)]
    calc ((((((infoIndicators content ce).zip infoCaps).map (fun p => min p.1 p.2)).sum : ℕ)) : ℚ)
        ≤ ((50 : ℕ) : ℚ) := Nat.cast_le.mpr hsum
      _ = 50 := by norm_num

/-- C6 counterexample: the bare image URL `https://x.com/a.webp` is
classified as an image by its `webp` extension, yet it also appears in the
returned external-link list, because the external-link filter only excludes
the seven substrings png/jpg/jpeg/gif/svg/pdf/doc. -/
theorem c6_counterexample :
    (("https://x.com/a.webp".toList) ∈
      (extractImagesAndLinks ("see https://x.com/a.webp".toList) []).images) ∧
    (("https://x.com/a.webp".toList) ∈
      (extractImagesAndLinks ("see https://x.com/a.webp".toList) []).externals) := by
  decide

/-- C6 (amended): every external link returned by `extract_images_and_links`
is an absolute http(s) URL whose lowercased text contains none of the seven
filtered extension substrings (.png/.jpg/.jpeg/.gif/.svg/.pdf/.doc); URLs
classified as images or attachments by the other extensions (webp, bmp, ico,
ppt, pptx, xls, xlsx, zip, tar, gz) may also appear among external links. -/
theorem c6_external_links_exclusion (content baseUrl url : PyStr)
    (h : url ∈ (extractImagesAndLinks content baseUrl).externals) :
    (startsWithL ("http://".toList) url || startsWithL ("https://".toList) url) = true ∧
    ∀ e ∈ filteredLinkExts, pyContains e (pyLower url) = false := by
  have h1 : url ∈ (rawLinkOccs content).filter externalLinkKeep := List.mem_dedup.1 h
  have h2 : externalLinkKeep url = true := (List.mem_filter.1 h1).2
  unfold externalLinkKeep at h2
  rw [Bool.and_eq_true] at h2
  refine ⟨h2.1, fun e he => ?_⟩
  have h3 : (filteredLinkExts.any (fun e => pyContains e (pyLower url))) = false := by
    have h4 := h2.2
    rwa [Bool.not_eq_eq_eq_not, Bool.not_true] at h4
  have h5 : ∀ e ∈ filteredLinkExts, ¬(pyContains e (pyLower url) = true) := by
    simpa [List.any_eq_true] using h3
  exact Bool.eq_false_iff.2 (h5 e he)

/-- C6 witness: the exclusion law applied to the external link produced from
a concrete input text. -/
theorem c6_witness :
    (startsWithL ("http://".toList) ("https://x.com/a.webp".toList) ||
      startsWithL ("https://".toList) ("https://x.com/a.webp".toList)) = true ∧
    ∀ e ∈ filteredLinkExts, pyContains e (pyLower ("https://x.com/a.webp".toList)) = false :=
  c6_external_links_exclusion ("see https://x.com/a.webp".toList) [] ("https://x.com/a.webp".toList)
    (by decide)

/-- C7: each of the three lists returned by `extract_images_and_links`
contains no duplicates, and for two inputs whose raw pattern occurrences
form the same sets (the same link occurrences in any order or multiplicity),
the corresponding outputs are equal as sets. -/
theorem c7_extract_dedup_order_independent (c1 c2 base : PyStr) :
    ((extractImagesAndLinks c1 base).images.Nodup ∧
      (extractImagesAndLinks c1 base).attachments.Nodup ∧
      (extractImagesAndLinks c1 base).externals.Nodup) ∧
    ((rawImageOccs c1).toFinset = (rawImageOccs c2).toFinset →
      (extractImagesAndLinks c1 base).images.toFinset =
        (extractImagesAndLinks c2 base).images.toFinset) ∧
    ((rawAttachmentOccs c1).toFinset = (rawAttachmentOccs c2).toFinset →
      (extractImagesAndLinks c1 base).attachments.toFinset =
        (extractImagesAndLinks c2 base).attachments.toFinset) ∧
    ((rawLinkOccs c1).toFinset = (rawLinkOccs c2).toFinset →
      (extractImagesAndLinks c1 base).externals.toFinset =
        (extractImagesAndLinks c2 base).externals.toFinset) := by
  refine ⟨⟨List.nodup_dedup _, List.nodup_dedup _, List.nodup_dedup _⟩,
    fun h => ?_, fun h => ?_, fun h => ?_⟩
  · show ((rawImageOccs c1).map (resolveUrl base)).dedup.toFinset =
      ((rawImageOccs c2).map (resolveUrl base)).dedup.toFinset
    rw [list_toFinset_dedup, list_toFinset_dedup, list_toFinset_map, list_toFinset_map, h]
  · show ((rawAttachmentOccs c1).map (resolveUrl base)).dedup.toFinset =
      ((rawAttachmentOccs c2).map (resolveUrl base)).dedup.toFinset
    rw [list_toFinset_dedup, list_toFinset_dedup, list_toFinset_map, list_toFinset_map, h]
  · show ((rawLinkOccs c1).filter externalLinkKeep).dedup.toFinset =
      ((rawLinkOccs c2).filter externalLinkKeep).dedup.toFinset
    rw [list_toFinset_dedup, list_toFinset_dedup, List.toFinset_filter, List.toFinset_filter, h]

/-- C7 witness: an input repeating the same bare URL twice extracts the same
sets as the input containing it once. -/
theorem c7_witness :
    ((extractImagesAndLinks ("http://a.io http://a.io".toList) []).images.toFinset =
      (extractImagesAndLinks ("http://a.io".toList) []).images.toFinset) ∧
    ((extractImagesAndLinks ("http://a.io http://a.io".toList) []).attachments.toFinset =
      (extractImagesAndLinks ("http://a.io".toList) []).attachments.toFinset) ∧
    ((extractImagesAndLinks ("http://a.io http://a.io".toList) []).externals.toFinset =
      (extractImagesAndLinks ("http://a.io".toList) []).externals.toFinset) :=
  ⟨(c7_extract_dedup_order_independent ("http://a.io http://a.io".toList)
      ("http://a.io".toList) []).2.1 (by decide),
   (c7_extract_dedup_order_independent ("http://a.io http://a.io".toList)
      ("http://a.io".toList) []).2.2.1 (by decide),
   (c7_extract_dedup_order_independent ("http://a.io http://a.io".toList)
      ("http://a.io".toList) []).2.2.2 (by decide)⟩

/-- C8: for every language and input text, each list returned by
`_extract_code_elements` is duplicate-free and has at most 20 entries, and
any language other than python, javascript and java yields three empty
lists. -/
theorem c8_code_elements_bounded (content lang : PyStr) :
    (extractCodeElements content lang).functions.Nodup ∧
    (extractCodeElements content lang).classes.Nodup ∧
    (extractCodeElements content lang).imports.Nodup ∧
    (extractCodeElements content lang).functions.length ≤ 20 ∧
    (extractCodeElements content lang).classes.length ≤ 20 ∧
    (extractCodeElements content lang).imports.length ≤ 20 ∧
    (lang ∉ supportedCodeLangs →
      extractCodeElements content lang = { functions := [], classes := [], imports := [] }) := by
  refine ⟨?_, ?_, ?_, ?_, ?_, ?_, ?_⟩
  · exact (List.nodup_dedup _).sublist (List.take_sublist _ _)
  · exact (List.nodup_dedup _).sublist (List.take_sublist _ _)
  · exact (List.nodup_dedup _).sublist (List.take_sublist _ _)
  · exact List.length_take_le _ _
  · exact List.length_take_le _ _
  · exact List.length_take_le _ _
  · intro h
    have h1 : ¬(lang = "python".toList) := fun he => h (by rw [he]; decide)
    have h2 : ¬(lang = "javascript".toList) := fun he => h (by rw [he]; decide)
    have h3 : ¬(lang = "java".toList) := fun he => h (by rw [he]; decide)
    unfold extractCodeElements rawCodeElements
    rw [if_neg h1, if_neg h2, if_neg h3]
    rfl

/-- C8 witness: an unsupported language yields three empty lists. -/
theorem c8_witness :
    extractCodeElements ("hello".toList) ("ruby".toList) =
      { functions := [], classes := [], imports := [] } :=
  (c8_code_elements_bounded ("hello".toList) ("ruby".toList)).2.2.2.2.2.2 (by decide)

/-- C9: when the per-file processing yields zero chunk records in total,
`ingest_repository` returns an unsuccessful outcome with a message, without
invoking the embedding or storage stages and without raising; a successful
outcome implies at least one chunk record was produced (and both stages
ran). -/
theorem c9_zero_chunks_unsuccessful (fileResults : List (Except PyStr (List ChunkRecord))) :
    (ingestCollectChunks fileResults = [] →
      (ingestRepository fileResults).success = false ∧
      ((ingestRepository fileResults).message).isSome = true ∧
      (ingestRepository fileResults).embeddingInvoked = false ∧
      (ingestRepository fileResults).storageInvoked = false) ∧
    ((ingestRepository fileResults).success = true →
      0 < (ingestRepository fileResults).chunksGenerated ∧
      (ingestRepository fileResults).embeddingInvoked = true ∧
      (ingestRepository fileResults).storageInvoked = true) := by
  constructor
  · intro h
    simp [ingestRepository, h]
  · intro h
    by_cases he : ingestCollectChunks fileResults = []
    · simp [ingestRepository, he] at h
    · have hne : (ingestCollectChunks fileResults).isEmpty = false := by
        simpa [List.isEmpty_iff] using he
      simp [ingestRepository, hne, List.length_pos, he]

/-- C9 witness: a run with one failing file and one empty file is reported
unsuccessful without invoking embedding or storage. -/
theorem c9_witness :
    (ingestRepository [Except.error ("boom".toList), Except.ok []]).success = false ∧
    (ingestRepository [Except.error ("boom".toList), Except.ok []]).embeddingInvoked = false ∧
    (ingestRepository [Except.error ("boom".toList), Except.ok []]).storageInvoked = false :=
  have h := (c9_zero_chunks_unsuccessful [Except.error ("boom".toList), Except.ok []]).1 (by decide)
  ⟨h.1, h.2.2.1, h.2.2.2⟩

/-- C10: every record built by `process_file` encodes in `image_links`
exactly the chunk-scoped image list whose length is `image_count`;
`has_images` holds exactly when that count is positive; `has_links` holds
exactly when the file-level external-link list is non-empty, so all records
of one file share the same `has_links` value. -/
theorem c10_image_link_invariants (content : PyStr) (chunker : PyStr → List PyStr)
    (fi : FileInfo) (owner repo branch : PyStr) (uuidGen : Nat → PyStr) (now modelName : PyStr) :
    (∀ r ∈ processFile (some content) chunker fi owner repo branch uuidGen now modelName,
      ∃ imgs : List PyStr,
        r.image_links = jsonDumps imgs ∧
        r.image_count = imgs.length ∧
        r.has_images = decide (0 < r.image_count) ∧
        r.has_links =
          decide (0 < (extractImagesAndLinks content (repoBaseUrl owner repo branch)).externals.length)) ∧
    (∀ r1 ∈ processFile (some content) chunker fi owner repo branch uuidGen now modelName,
      ∀ r2 ∈ processFile (some content) chunker fi owner repo branch uuidGen now modelName,
        r1.has_links = r2.has_links) := by
  have key : ∀ r ∈ processFile (some content) chunker fi owner repo branch uuidGen now modelName,
      ∃ imgs : List PyStr,
        r.image_links = jsonDumps imgs ∧
        r.image_count = imgs.length ∧
        r.has_images = decide (0 < r.image_count) ∧
        r.has_links =
          decide (0 < (extractImagesAndLinks content (repoBaseUrl owner repo branch)).externals.length) := by
    intro r hr
    by_cases hg : (content.isEmpty || decide ((pyStrip content).length < 50)) = true
    · rw [processFile_eq_of_guard_true content chunker fi owner repo branch uuidGen now modelName hg] at hr
      exact absurd hr (List.not_mem_nil r)
    · have hg2 : (content.isEmpty || decide ((pyStrip content).length < 50)) = false :=
        Bool.eq_false_iff.2 hg
      rw [processFile_eq_of_guard_false content chunker fi owner repo branch uuidGen now modelName hg2] at hr
      rcases List.mem_filterMap.1 hr with ⟨jd, hjd, heq⟩
      by_cases hk : chunkKeep jd.2
      · rw [if_pos hk] at heq
        have hre := Option.some.inj heq
        refine ⟨chunkImagesOf
            (extractImagesAndLinks content (repoBaseUrl owner repo branch)).images jd.2,
          ?_, ?_, ?_, ?_⟩ <;> rw [← hre] <;> rfl
      · rw [if_neg hk] at heq
        exact Option.noConfusion heq
  refine ⟨key, fun r1 h1 r2 h2 => ?_⟩
  rcases key r1 h1 with ⟨_, _, _, _, hl1⟩
  rcases key r2 h2 with ⟨_, _, _, _, hl2⟩
  rw [hl1, hl2]

/-- C10 witness: the invariants instantiated on the single record produced
from a 50-character file with one 30-character chunk. -/
theorem c10_witness :
    ∃ imgs : List PyStr,
      (c10SampleOut.headD emptyChunkRecord).image_links = jsonDumps imgs ∧
      (c10SampleOut.headD emptyChunkRecord).image_count = imgs.length ∧
      (c10SampleOut.headD emptyChunkRecord).has_images =
        decide (0 < (c10SampleOut.headD emptyChunkRecord).image_count) ∧
      (c10SampleOut.headD emptyChunkRecord).has_links =
        decide (0 <
          (extractImagesAndLinks (List.replicate 50 'a') (repoBaseUrl [] [] [])).externals.length) :=
  (c10_image_link_invariants (List.replicate 50 'a') c10SampleChunker
      emptyFileInfo [] [] [] (fun _ => []) [] []).1
    (c10SampleOut.headD emptyChunkRecord)
    (show c10SampleOut.headD emptyChunkRecord ∈ c10SampleOut by
      rw [show c10SampleOut = [c10SampleOut.headD emptyChunkRecord] from rfl]
      exact List.mem_singleton_self _)
